import Mathlib

/-!
Shallow embedding of the shecv list-widget core (src/types.rs, src/listui.rs,
src/text.rs, src/window.rs, src/main.rs) and proofs about its specification.

Modelling conventions:
* Rust panics (unwrap on None, debug-checked integer under/overflow,
  remainder by zero) are modelled as `Option.none`.
* f32/f64 values are modelled as exact rationals; float-to-integer `as`
  casts are modelled as saturating truncation toward zero, matching Rust.
* usize entry counts are modelled as `Nat`; the usize→i32 casts on entry
  counts are modelled exactly (entry lists are far below i32::MAX).
* The text shaper (glyphon) is an external collaborator: the measured pixel
  width it returns for a shaped string is the parameter `measure`.
-/

namespace Shecv

/-- Exact fraction type modelling f32/f64 values: an unnormalized
numerator/denominator pair of integers. Every value the embedding constructs
keeps a positive denominator; operations below preserve that invariant, and
any finite IEEE float is representable this way. Kept unnormalized so the
kernel can evaluate it with plain integer arithmetic. -/
structure Q where
  n : Int
  d : Int
deriving DecidableEq

instance (k : Nat) : OfNat Q k := ⟨⟨k, 1⟩⟩

instance : NatCast Q := ⟨fun k => ⟨k, 1⟩⟩

instance : IntCast Q := ⟨fun i => ⟨i, 1⟩⟩

instance : Add Q := ⟨fun a b => ⟨a.n * b.d + b.n * a.d, a.d * b.d⟩⟩

instance : Neg Q := ⟨fun a => ⟨-a.n, a.d⟩⟩

instance : Sub Q := ⟨fun a b => a + -b⟩

instance : Mul Q := ⟨fun a b => ⟨a.n * b.n, a.d * b.d⟩⟩

/-- Reciprocal; keeps the denominator positive, sends 0 to 0. -/
def Q.inv (a : Q) : Q :=
  if a.n < 0 then ⟨-a.d, -a.n⟩ else if a.n = 0 then ⟨0, 1⟩ else ⟨a.d, a.n⟩

instance : Div Q := ⟨fun a b => a * b.inv⟩

instance : LT Q := ⟨fun a b => a.n * b.d < b.n * a.d⟩

instance : LE Q := ⟨fun a b => a.n * b.d ≤ b.n * a.d⟩

instance (a b : Q) : Decidable (a < b) := Int.decLt _ _

instance (a b : Q) : Decidable (a ≤ b) := Int.decLe _ _

/-- Value is zero (denominators are positive by construction). -/
def Q.isZero (a : Q) : Bool := a.n = 0

/-- Floor (rounds toward negative infinity; denominator positive). -/
def Q.floor (a : Q) : Int := Int.fdiv a.n a.d

/-- Truncation toward zero (the core of Rust float→int as-casts). -/
def Q.trunc (a : Q) : Int := Int.tdiv a.n a.d

/-- Absolute value. -/
def Q.abs (a : Q) : Q := if a.n < 0 then -a else a

/-- Natural power. -/
def Q.powNat (a : Q) : Nat → Q
  | 0 => 1
  | k + 1 => a * Q.powNat a k

/-- Integer power (negative exponents via the reciprocal). -/
def Q.powInt (a : Q) : Int → Q
  | .ofNat k => a.powNat k
  | .negSucc k => (a.powNat (k + 1)).inv

instance : Pow Q Nat := ⟨Q.powNat⟩

instance : Pow Q Int := ⟨Q.powInt⟩

/-- RGBA color (types.rs:135-142); f32 channels modelled as exact fractions. -/
structure ColorRGBA where
  r : Q
  g : Q
  b : Q
  a : Q
deriving DecidableEq

/-- ColorRGBA::new (types.rs:156). -/
def ColorRGBA.new (r g b a : Q) : ColorRGBA := ⟨r, g, b, a⟩

/-- ColorRGBA::grey_darkest (types.rs:178). -/
def ColorRGBA.grey_darkest : ColorRGBA := ⟨1/100, 1/100, 1/100, 1⟩

/-- ColorRGBA::grey_darker (types.rs:187). -/
def ColorRGBA.grey_darker : ColorRGBA := ⟨2/100, 2/100, 2/100, 1⟩

/-- ColorRGBA::grey_dark (types.rs:196). -/
def ColorRGBA.grey_dark : ColorRGBA := ⟨3/100, 3/100, 3/100, 1⟩

/-- ColorRGBA::grey_medium (types.rs:205). -/
def ColorRGBA.grey_medium : ColorRGBA := ⟨6/100, 6/100, 6/100, 1⟩

/-- ColorRGBA::grey_light (types.rs:214). -/
def ColorRGBA.grey_light : ColorRGBA := ⟨40/100, 40/100, 40/100, 1⟩

/-- ColorRGBA::grey_lighter (types.rs:223). -/
def ColorRGBA.grey_lighter : ColorRGBA := ⟨60/100, 60/100, 60/100, 1⟩

/-- ColorRGBA::white (types.rs:232). -/
def ColorRGBA.white : ColorRGBA := ⟨1, 1, 1, 1⟩

/-- The closed set of ListItemData implementations (types.rs:87-94).
f32/f64 are modelled as exact rationals. -/
inductive StoredValue where
  | vBool : Bool → StoredValue
  | vF32 : Q → StoredValue
  | vF64 : Q → StoredValue
  | vI32 : Int → StoredValue
  | vI64 : Int → StoredValue
  | vU32 : Nat → StoredValue
  | vU64 : Nat → StoredValue
  | vText : String → StoredValue
deriving DecidableEq

/-- Fractional digits of a rational in [0, 1), fuel-bounded (used to model the
Display rendering of finite decimal float values). -/
def fracDigits : Nat → Q → String
  | 0, _ => ""
  | fuel + 1, q =>
    if q.isZero then ""
    else
      let d := (q * 10).floor
      toString d.toNat ++ fracDigits fuel (q * 10 - (d : Q))

/-- Model of Rust Display for f64/f32 on finite decimal values: minimal
decimal expansion, integers rendered without a decimal point (0.0 → "0",
0.25 → "0.25"). Rust std Display is external to the repository. -/
def dispRat (q : Q) : String :=
  let s := if q < 0 then "-" else ""
  let a := q.abs
  let ip := a.floor
  let fr := a - (ip : Q)
  if fr.isZero then s ++ toString ip.toNat
  else s ++ toString ip.toNat ++ "." ++ fracDigits 64 fr

/-- Rust Display text of a stored value, as read by format!("...", value) in
window.rs:173 (Display impls: std for primitives, types.rs:75-85 for the rest). -/
def StoredValue.display : StoredValue → String
  | .vBool b => if b then "true" else "false"
  | .vI32 n => toString n
  | .vI64 n => toString n
  | .vU32 n => toString n
  | .vU64 n => toString n
  | .vF32 q => dispRat q
  | .vF64 q => dispRat q
  | .vText s => s

/-- HashMap String → Box of dyn ListItemData (types.rs:26-28), modelled as an
association list; the operations below keep at most one binding per key. -/
structure ValueStore where
  map : List (String × StoredValue)
deriving DecidableEq

/-- HashMap::get: first binding for the key. -/
def assocGet (k : String) : List (String × StoredValue) → Option StoredValue
  | [] => none
  | (k1, v) :: rest => if k1 = k then some v else assocGet k rest

/-- HashMap::insert: overwrite the existing binding in place, or append. -/
def assocInsert (k : String) (v : StoredValue) :
    List (String × StoredValue) → List (String × StoredValue)
  | [] => [(k, v)]
  | (k1, v1) :: rest =>
    if k1 = k then (k, v) :: rest else (k1, v1) :: assocInsert k v rest

/-- HashMap::remove: drop the binding for the key. -/
def assocRemove (k : String) :
    List (String × StoredValue) → List (String × StoredValue)
  | [] => []
  | (k1, v1) :: rest => if k1 = k then rest else (k1, v1) :: assocRemove k rest

/-- Value handle (types.rs:98-105): a non-owning reference to a store entry,
identified by key only (PhantomData erased). -/
structure Value where
  key : String
deriving DecidableEq

/-- ValueStore::new (types.rs:31). -/
def ValueStore.new : ValueStore := ⟨[]⟩

/-- ValueStore::get (types.rs:37): builds a handle; never touches the map. -/
def ValueStore.get (_store : ValueStore) (key : String) : Value := ⟨key⟩

/-- Value::load (types.rs:111-113): store.map.get(key).unwrap() — `none`
models the unwrap panic when the key is absent. The store is not modified. -/
def Value.load (self : Value) (store : ValueStore) : Option StoredValue :=
  assocGet self.key store.map

/-- Value::new (types.rs:115-126): inserts the value and returns the handle. -/
def Value.mkNew (key : String) (v : StoredValue) (store : ValueStore) :
    ValueStore × Value :=
  (⟨assocInsert key v store.map⟩, ⟨key⟩)

/-- ValueStore::insert (types.rs:44-55): delegates to Value::new. -/
def ValueStore.insert (store : ValueStore) (key : String) (v : StoredValue) :
    ValueStore × Value :=
  Value.mkNew key v store

/-- Value::replace (types.rs:128-133): map.remove(key) then map.insert(key, v).
Total: it never fails, and inserts the value even when the key was absent. -/
def Value.replace (self : Value) (v : StoredValue) (store : ValueStore) :
    ValueStore :=
  ⟨assocInsert self.key v (assocRemove self.key store.map)⟩

/-- ListItemType (listui.rs:150-159). -/
inductive ListItemType where
  | Text | CheckBox | Slider | Button | RowGroup | SubList
deriving DecidableEq

/-- ListItemSelectable (listui.rs:161-166). -/
inductive ListItemSelectable where
  | Selectable | NotSelectable
deriving DecidableEq

/-- ListItemEditable (listui.rs:168-173). -/
inductive ListItemEditable where
  | Editable | NotEditable
deriving DecidableEq

/-- ListAnchor (listui.rs:121-128). -/
inductive ListAnchor where
  | Left | Middle | Right | Hidden
deriving DecidableEq

/-- ListResumeBehavior (listui.rs:131-136). -/
inductive ListResumeBehavior where
  | First | LastUsed
deriving DecidableEq

/-- ListPopoutBehavior (listui.rs:37-42). -/
inductive ListPopoutBehavior where
  | AlwaysVisible | HiddenWhenUnfocused
deriving DecidableEq

/-- ListPopoutState (listui.rs:44-48); f32 speed/delta as rationals. -/
structure ListPopoutState where
  behavior : ListPopoutBehavior
  speed : Q
  delta : Q
deriving DecidableEq

/-- ListPopoutState::default (listui.rs:50-58). -/
def ListPopoutState.default : ListPopoutState := ⟨.AlwaysVisible, 1, 1⟩

/-- ListStyle (listui.rs:5-19). -/
structure ListStyle where
  bg : ColorRGBA
  li_selected : ColorRGBA
  li_selected_bg : ColorRGBA
  li_unselected : ColorRGBA
  li_unselected_bg : ColorRGBA
  li_activated : ColorRGBA
  li_activated_bg : ColorRGBA
  li_disabled : ColorRGBA
  li_disabled_bg : ColorRGBA
deriving DecidableEq

/-- ListStyle::default (listui.rs:21-35). -/
def ListStyle.default : ListStyle :=
  { bg := ColorRGBA.grey_darkest
    li_selected := ColorRGBA.white
    li_selected_bg := ColorRGBA.grey_medium
    li_activated := ColorRGBA.white
    li_activated_bg := ColorRGBA.grey_lighter
    li_unselected := ColorRGBA.grey_light
    li_unselected_bg := ColorRGBA.grey_dark
    li_disabled := ColorRGBA.grey_dark
    li_disabled_bg := ColorRGBA.grey_darker }

/-- ListItem (listui.rs:182-188); the Rc-shared Value handle is its key. -/
structure ListItem where
  label : String
  ty : ListItemType
  selectable : ListItemSelectable
  editable : ListItemEditable
  value : Value
deriving DecidableEq

/-- ListInterface (listui.rs:61-70); selected_index is i32 (signed). -/
structure ListInterface where
  style : ListStyle
  anchor : ListAnchor
  focused : Bool
  popout : ListPopoutState
  resume : ListResumeBehavior
  selected_index : Int
  entries : List ListItem
  render_group_index : Nat
deriving DecidableEq

/-- ListInterface::default (listui.rs:77-88). -/
def ListInterface.default (render_group_index : Nat) : ListInterface :=
  { style := ListStyle.default
    anchor := .Left
    focused := false
    popout := ListPopoutState.default
    resume := .First
    selected_index := 0
    entries := []
    render_group_index }

/-- ListInterface::add_labeled_value (listui.rs:90-98). -/
def ListInterface.add_labeled_value (l : ListInterface) (label : String)
    (value : Value) : ListInterface :=
  { l with entries := l.entries ++
      [{ label, ty := .Text, selectable := .Selectable,
         editable := .NotEditable, value }] }

/-- Keycode::Up arm body for one listui (window.rs:497-503), for an accepted
event (cooldown elapsed). Debug-build checked arithmetic: with an empty list
and selected_index == 0, `entries.len() - 1` underflows usize — `none` models
the panic. usize→i32 on the entry count is modelled exactly. -/
def navUp (l : ListInterface) : Option ListInterface :=
  if l.selected_index = 0 then
    match l.entries.length with
    | 0 => none
    | n + 1 => some { l with selected_index := (n : Int) }
  else if 0 ≤ l.selected_index then
    some { l with selected_index := l.selected_index - 1 }
  else
    some l

/-- Keycode::Down arm body for one listui (window.rs:522-529), for an accepted
event. The comparison evaluates `entries.len() - 1` unconditionally, so an
empty list is an immediate debug underflow panic (`none`); a release build
still panics on `% 0` whenever selected_index ≥ 0. In the reachable branch
the Rust truncated remainder agrees with Int.emod (nonneg dividend, positive
divisor). -/
def navDown (l : ListInterface) : Option ListInterface :=
  match l.entries.length with
  | 0 => none
  | n + 1 =>
    if l.selected_index = (n : Int) then
      some { l with selected_index := 0 }
    else if 0 ≤ l.selected_index then
      some { l with selected_index := (l.selected_index + 1) % ((n : Int) + 1) }
    else
      some l

/-- Iterated accepted NavigateDown events. -/
def navDownIter : Nat → ListInterface → Option ListInterface
  | 0, l => some l
  | n + 1, l => (navDown l).bind (navDownIter n)

/-- The navigation-relevant part of window.rs State (window.rs:73-82); the
SystemTime cooldown fields (ui_wait, last_ui_time) are modelled by taking the
accepted branch (input_ok = true) of process_events. -/
structure AppState where
  listuis : List ListInterface
deriving DecidableEq

/-- The for-loop over all listuis in an accepted navigation arm; a panic in
any iteration aborts the whole event (`none`). -/
def navigateAll (step : ListInterface → Option ListInterface) :
    List ListInterface → Option (List ListInterface)
  | [] => some []
  | l :: rest =>
    match step l with
    | none => none
    | some l1 =>
      match navigateAll step rest with
      | none => none
      | some rest1 => some (l1 :: rest1)

/-- Accepted Keycode::Up event at State level (window.rs:482-506). -/
def processUp (s : AppState) : Option AppState :=
  (navigateAll navUp s.listuis).map (fun ls => { listuis := ls })

/-- Accepted Keycode::Down event at State level (window.rs:507-532). -/
def processDown (s : AppState) : Option AppState :=
  (navigateAll navDown s.listuis).map (fun ls => { listuis := ls })

/-- Value of a decimal digit list. -/
def digitsVal (cs : List Char) : Nat :=
  cs.foldl (fun acc c => acc * 10 + (c.toNat - 48)) 0

/-- Optional leading sign: (negative?, remaining characters). -/
def splitSign : List Char → Bool × List Char
  | '-' :: rest => (true, rest)
  | '+' :: rest => (false, rest)
  | cs => (false, cs)

/-- Exponent tail of a float literal: optional sign then at least one digit,
consuming the whole remainder. -/
def parseExpDigits (cs : List Char) : Option Int :=
  let p := splitSign cs
  if p.2 ≠ [] ∧ p.2.all Char.isDigit then
    some (if p.1 then -(digitsVal p.2 : Int) else (digitsVal p.2 : Int))
  else none

/-- Model of Rust str::parse::<f64> (std FromStr, external to the repository)
restricted to finite decimal literals: optional sign, digits with an optional
fraction part (at least one digit overall), optional exponent; the inf/NaN
forms are omitted (no stored value displays as them). Exact rational result. -/
def parseF64 (s : String) : Option Q :=
  let p := splitSign s.toList
  let neg := p.1
  let cs := p.2
  let ip := cs.takeWhile Char.isDigit
  let cs1 := cs.dropWhile Char.isDigit
  let fpRest : List Char × List Char :=
    match cs1 with
    | '.' :: rest => (rest.takeWhile Char.isDigit, rest.dropWhile Char.isDigit)
    | _ => ([], cs1)
  let fp := fpRest.1
  let cs2 := fpRest.2
  if ip.length + fp.length = 0 then none
  else
    let mant : Q := (digitsVal (ip ++ fp) : Q) / ((10 : Q) ^ fp.length)
    let signed := if neg then -mant else mant
    match cs2 with
    | [] => some signed
    | 'e' :: rest => (parseExpDigits rest).map (fun e => signed * (10 : Q) ^ e)
    | 'E' :: rest => (parseExpDigits rest).map (fun e => signed * (10 : Q) ^ e)
    | _ => none

/-- Round to the nearest integer, ties to even — the rounding Rust float
formatting applies; exact on all inputs the repository produces. -/
def roundHalfEven (q : Q) : Int :=
  let f := q.floor
  let r := q - (f : Q)
  if r < 1/2 then f
  else if 1/2 < r then f + 1
  else if f % 2 = 0 then f else f + 1

/-- Two-digit zero-padded rendering of n < 100. -/
def pad2 (n : Nat) : String :=
  if n < 10 then "0" ++ toString n else toString n

/-- Model of Rust format with precision 2 on an f64: sign, integer part, two
fractional digits. -/
def fmt2 (q : Q) : String :=
  let n := roundHalfEven (q * 100)
  let sign := if n < 0 then "-" else ""
  let m := n.natAbs
  sign ++ toString (m / 100) ++ "." ++ pad2 (m % 100)

/-- The text rewriting inside TextCollection::new_text (text.rs:70-75): any
input string that parses as f64 is re-rendered with exactly two decimal
places; every other string is shaped unmodified. -/
def formatText (s : String) : String :=
  match parseF64 s with
  | some q => fmt2 q
  | none => s

/-- Rust f32→i32 saturating as-cast: truncate toward zero, clamp to i32. -/
def ratAsI32 (q : Q) : Int :=
  if q.trunc < -2147483648 then -2147483648
  else if 2147483647 < q.trunc then 2147483647
  else q.trunc

/-- Rust f32→u32 saturating as-cast: truncate toward zero, clamp to u32. -/
def ratAsU32 (q : Q) : Nat :=
  if q.trunc < 0 then 0
  else if 4294967295 < q.trunc then 4294967295
  else q.trunc.toNat

/-- Rust u32→i32 as-cast (two's-complement wrap). -/
def u32AsI32 (n : Nat) : Int :=
  if n < 2147483648 then (n : Int) else (n : Int) - 4294967296

/-- Rust i32→u32 as-cast (two's-complement wrap). -/
def intAsU32 (n : Int) : Nat := (n % 4294967296).toNat

/-- PixelRect (types.rs:566-571): window-pixel rectangle plus the viewport
extent it was computed against. -/
structure PixelRect where
  xy : Int × Int
  wh : Nat × Nat
  extent : Nat × Nat
deriving DecidableEq

/-- Exact-rational 3-vector (glam Vec3 with f32 entries). -/
structure Vec3Q where
  x : Q
  y : Q
  z : Q
deriving DecidableEq

/-- Componentwise addition (glam Vec3 +=). -/
def Vec3Q.add (a v : Vec3Q) : Vec3Q := ⟨a.x + v.x, a.y + v.y, a.z + v.z⟩

/-- Exact-rational quaternion (glam Quat). -/
structure QuatQ where
  x : Q
  y : Q
  z : Q
  w : Q
deriving DecidableEq

/-- Quat::IDENTITY. -/
def QuatQ.identity : QuatQ := ⟨0, 0, 0, 1⟩

/-- ComponentTransform (types.rs:573-578). -/
structure ComponentTransform where
  pixel_rect : Option PixelRect
  location : Vec3Q
  rotation : QuatQ
  scale : Vec3Q
deriving DecidableEq

/-- glam Mat4::from_scale_rotation_translation, modelled as the record of its
three arguments (it is injective on them; the 4×4 float entries themselves
are out of scope). -/
structure Mat4Q where
  scale : Vec3Q
  rotation : QuatQ
  location : Vec3Q
deriving DecidableEq

/-- ComponentTransform::to_mat4 (types.rs:592-594). -/
def ComponentTransform.to_mat4 (t : ComponentTransform) : Mat4Q :=
  ⟨t.scale, t.rotation, t.location⟩

/-- ComponentTransform::unit_square_transform_from_pixel_rect
(types.rs:613-635). f32 arithmetic modelled as exact rationals (a zero extent
would be an inf in Rust and a 0 here; extents are nonzero in practice). -/
def ComponentTransform.unit_square_transform_from_pixel_rect
    (pr : PixelRect) : ComponentTransform :=
  { pixel_rect := some pr
    location := { x := ((pr.xy.1 : Q) / (pr.extent.1 : Q)) * 2 - 1
                  y := 1 - ((pr.xy.2 : Q) / (pr.extent.2 : Q)) * 2
                  z := 0 }
    rotation := QuatQ.identity
    scale := { x := ((pr.wh.1 : Q) / (pr.extent.1 : Q)) * 2
               y := ((pr.wh.2 : Q) / (pr.extent.2 : Q)) * 2
               z := 1 } }

/-- Instance (types.rs:371-376). -/
structure Instance where
  needs_update : Bool
  transform : ComponentTransform
  tex_transform : ComponentTransform
  color : ColorRGBA
deriving DecidableEq

/-- Instance::translate (types.rs:378-383): moves the logical transform and
sets the dirty flag. -/
def Instance.translate (inst : Instance) (v : Vec3Q) : Instance :=
  { inst with
      transform := { inst.transform with
                       location := inst.transform.location.add v }
      needs_update := true }

/-- InstanceData (types.rs:385-391): the GPU-staged form. -/
structure InstanceData where
  transform : Mat4Q
  tex_transform : Mat4Q
  color : ColorRGBA
deriving DecidableEq

/-- InstanceBufferManager (types.rs:403-406): local instance list plus the
GPU-side buffer, modelled as the list of its max_instances slots. -/
structure InstanceBufferManager where
  data : List Instance
  buffer : List InstanceData
deriving DecidableEq

/-- InstanceBufferManager::add_instance (types.rs:422-446): stages the packed
data at the next free slot and appends the local instance (flag clear). -/
def InstanceBufferManager.add_instance (m : InstanceBufferManager)
    (transform tex_transform : ComponentTransform) (color : ColorRGBA) :
    InstanceBufferManager :=
  { data := m.data ++
      [{ needs_update := false, transform, tex_transform, color }]
    buffer := m.buffer.set m.data.length
      ⟨transform.to_mat4, tex_transform.to_mat4, color⟩ }

/-- InstanceBufferManager::clear (types.rs:448-452): drops local instances
only; GPU slots are left as they are. -/
def InstanceBufferManager.clear (m : InstanceBufferManager) :
    InstanceBufferManager :=
  { m with data := [] }

/-- The guard of the recalc loop (types.rs:456): dirty flag set and transform
derived from a pixel rectangle. -/
def dirtyPix (inst : Instance) : Bool :=
  inst.needs_update && inst.transform.pixel_rect.isSome

/-- The InstanceData written back for one recalculated instance
(types.rs:459-476): placement recomputed against the new extent from the
normalized location and the original pixel width/height. -/
def recalcData (screen : Nat × Nat) (inst : Instance) : InstanceData :=
  let prWh :=
    match inst.transform.pixel_rect with
    | some pr => pr.wh
    | none => (0, 0)
  { transform := (ComponentTransform.unit_square_transform_from_pixel_rect
      { xy := (ratAsI32 ((inst.transform.location.x * (1/2) + 1/2) * (screen.1 : Q)),
               ratAsI32 ((inst.transform.location.y * (1/2) + 1/2) * (screen.2 : Q)))
        wh := prWh
        extent := screen }).to_mat4
    tex_transform := inst.tex_transform.to_mat4
    color := inst.color }

/-- The enumerated loop body of recalc_screen_instances (types.rs:455-483):
walks the local instances; a dirty pixel-rect instance gets its flag cleared
and its slot re-staged, every other instance and slot is untouched. -/
def recalcAux (screen : Nat × Nat) :
    List Instance → List InstanceData → Nat → List Instance × List InstanceData
  | [], buf, _ => ([], buf)
  | inst :: rest, buf, start =>
    if dirtyPix inst then
      let buf1 := buf.set start (recalcData screen inst)
      let p := recalcAux screen rest buf1 (start + 1)
      ({ inst with needs_update := false } :: p.1, p.2)
    else
      let p := recalcAux screen rest buf (start + 1)
      (inst :: p.1, p.2)

/-- InstanceBufferManager::recalc_screen_instances (types.rs:454-484). -/
def InstanceBufferManager.recalc_screen_instances (screen : Nat × Nat)
    (m : InstanceBufferManager) : InstanceBufferManager :=
  let p := recalcAux screen m.data m.buffer 0
  { data := p.1, buffer := p.2 }

/-- Emitted colored rectangle: the (PixelRect, color) pair handed at a
layout_listui add_new call site (geo.rs add_new is absent from src; per spec
section 4.4 it forwards these to InstanceBufferManager::add_instance). -/
structure RectPrim where
  rect : PixelRect
  color : ColorRGBA
deriving DecidableEq

/-- Emitted text primitive: the arguments handed to
TextCollection::new_text (text.rs:63-107), with content already rewritten by
its numeric-reformat rule. -/
structure TextPrim where
  left : Q
  top : Q
  width : Q
  height : Q
  content : String
  color : ColorRGBA
deriving DecidableEq

/-- Current surface configuration (width/height in pixels). -/
structure LayoutConfig where
  width : Nat
  height : Nat
deriving DecidableEq

/-- One layout pass's emissions: rects in instance-buffer order (background
first, then one foreground per entry), texts in text-collection order (label
then value, per entry). -/
structure LayoutOutput where
  rects : List RectPrim
  texts : List TextPrim
deriving DecidableEq

/-- Anchor-relative top-left coordinate (window.rs:122-130); wh = (220, 40). -/
def anchorTopLeft (cfg : LayoutConfig) : ListAnchor → Int × Int
  | .Left => (0, 0)
  | .Middle => ((cfg.width : Int) / 2 - 110, 0)
  | .Right => ((cfg.width : Int) - 220, 0)
  | .Hidden => (0, 0)

/-- Label text primitive of entry i (window.rs:144-158). -/
def labelPrim (sel : Int) (style : ListStyle) (tl : Int × Int) (i : Nat)
    (item : ListItem) : TextPrim :=
  { left := (tl.1 : Q) + 5/2
    top := ((tl.2 + 40 * (i : Int) : Int) : Q) + 5/2
    width := 220
    height := 40
    content := formatText (item.label ++ ": ")
    color := if sel = (i : Int) then style.li_selected else style.li_unselected }

/-- Value text primitive of entry i (window.rs:166-180): placed right of the
measured label width (f32→i32 truncating cast). -/
def valuePrim (measure : String → Q) (sel : Int) (style : ListStyle)
    (tl : Int × Int) (i : Nat) (item : ListItem) (v : StoredValue) : TextPrim :=
  { left := ((tl.1 + ratAsI32 (measure (formatText (item.label ++ ": "))) : Int) : Q) + 5/2
    top := ((tl.2 + 40 * (i : Int) : Int) : Q) + 5/2
    width := 220
    height := 40
    content := formatText v.display
    color := if sel = (i : Int) then style.li_selected else style.li_unselected }

/-- The combined label+value width of one entry as the measurement pass
computes it (window.rs:161-187): the two shaped widths summed (f32), cast to
u32 and then compared as i32. -/
def elemWidth (measure : String → Q) (item : ListItem) (v : StoredValue) : Int :=
  u32AsI32 (ratAsU32 (measure (formatText (item.label ++ ": ")) +
                      measure (formatText v.display)))

/-- Measurement pass (window.rs:141-190): per entry, emit label text, load the
bound value (`none` models the unwrap panic on a dangling handle), emit value
text, and track the running maximum combined width final_x. -/
def pass1 (store : ValueStore) (measure : String → Q) (sel : Int)
    (style : ListStyle) (tl : Int × Int) :
    Nat → Int → List ListItem → Option (List TextPrim × Int)
  | _, finalX, [] => some ([], finalX)
  | i, finalX, item :: rest =>
    match item.value.load store with
    | none => none
    | some v =>
      match pass1 store measure sel style tl (i + 1)
          (if finalX < elemWidth measure item v then elemWidth measure item v
           else finalX) rest with
      | none => none
      | some (ts, fxOut) =>
        some (labelPrim sel style tl i item ::
              valuePrim measure sel style tl i item v :: ts, fxOut)

/-- Foreground pass (window.rs:205-225): one inset rect per entry, selected or
unselected background color; `final_x as u32 - 8` is a debug-checked u32
subtraction (`none` models the underflow panic); 40 - 8 = 32. -/
def pass2 (sel : Int) (style : ListStyle) (cfg : LayoutConfig)
    (tl : Int × Int) (finalX : Int) : Nat → List ListItem → Option (List RectPrim)
  | _, [] => some []
  | i, _ :: rest =>
    if 8 ≤ intAsU32 finalX then
      match pass2 sel style cfg tl finalX (i + 1) rest with
      | none => none
      | some rs =>
        some ({ rect := { xy := (tl.1 + 4, tl.2 + 40 * (i : Int) + 4)
                          wh := (intAsU32 finalX - 8, 32)
                          extent := (cfg.width, cfg.height) }
                color := if sel = (i : Int) then style.li_selected_bg
                         else style.li_unselected_bg } :: rs)
    else none

/-- State::layout_listui for one ListInterface (window.rs:110-228): clears the
render group's instances and the text collection, runs the measurement pass,
emits the single background rect sized (final_x, config.height) at the anchor
coordinate, then the foreground pass. -/
def layout_listui (store : ValueStore) (measure : String → Q)
    (cfg : LayoutConfig) (l : ListInterface) : Option LayoutOutput :=
  let tl := anchorTopLeft cfg l.anchor
  match pass1 store measure l.selected_index l.style tl 0 0 l.entries with
  | none => none
  | some (ts, finalX) =>
    match pass2 l.selected_index l.style cfg tl finalX 0 l.entries with
    | none => none
    | some fgs =>
      some { rects := { rect := { xy := tl
                                  wh := (intAsU32 finalX, cfg.height)
                                  extent := (cfg.width, cfg.height) }
                        color := l.style.bg } :: fgs
             texts := ts }

/-- Combined shaped label+value width of one entry behind its value load. -/
def entryCombinedWidth (store : ValueStore) (measure : String → Q)
    (item : ListItem) : Option Int :=
  (item.value.load store).map (elemWidth measure item)

/-- The per-entry combined widths of a whole entry list (`none` as soon as a
value load panics), in entry order. -/
def widthsM (store : ValueStore) (measure : String → Q) :
    List ListItem → Option (List Int)
  | [] => some []
  | item :: rest =>
    match entryCombinedWidth store measure item with
    | none => none
    | some w =>
      match widthsM store measure rest with
      | none => none
      | some ws => some (w :: ws)

/-- The per-frame store mutation at the end of the event-processing closure
(window.rs:537-544): unconditionally replace "key1" with the String "banana",
then load "key3" (`none` models the unwrap panic on an absent key), downcast
to f64 (`none` models the downcast_ref unwrap panic on any other type), add
0.01 and replace. -/
def frameStoreUpdate (store : ValueStore) : Option ValueStore :=
  let store1 := (store.get "key1").replace (.vText "banana") store
  let k3 := store1.get "key3"
  match k3.load store1 with
  | none => none
  | some v =>
    match v with
    | .vF64 q => some (k3.replace (.vF64 (q + 1/100)) store1)
    | _ => none

/-- The store built by the program's own setup (main.rs:25-26): a new store
with only the key "time", bound to 0.0f64. -/
def setupStore : ValueStore := (ValueStore.new.insert "time" (.vF64 0)).1

/-! Concrete example data shared by witnesses and counterexamples. -/

/-- Example item bound to key "k". -/
def exItem : ListItem :=
  { label := "t", ty := .Text, selectable := .Selectable,
    editable := .NotEditable, value := ⟨"k"⟩ }

/-- Example store binding "k" to a boolean. -/
def exStore : ValueStore := ⟨[("k", .vBool true)]⟩

/-- One-entry example list. -/
def exList1 : ListInterface :=
  { ListInterface.default 0 with entries := [exItem] }

/-- Three-entry example list with the middle entry selected. -/
def exList3 : ListInterface :=
  { ListInterface.default 0 with
      entries := [exItem, exItem, exItem], selected_index := 1 }

/-! Association-list lemmas for the store operations. -/

/-- Lookup after inserting the same key. -/
theorem assocGet_insert_self (k : String) (v : StoredValue) :
    ∀ m, assocGet k (assocInsert k v m) = some v := by
  intro m
  induction m with
  | nil => simp [assocInsert, assocGet]
  | cons p rest ih =>
    obtain ⟨k1, v1⟩ := p
    by_cases hk : k1 = k
    · subst hk; simp [assocInsert, assocGet]
    · simp [assocInsert, assocGet, hk, ih]

/-- Lookup of a different key after an insert. -/
theorem assocGet_insert_ne (k2 k : String) (v : StoredValue) (h : k2 ≠ k) :
    ∀ m, assocGet k2 (assocInsert k v m) = assocGet k2 m := by
  intro m
  induction m with
  | nil => simp [assocInsert, assocGet, Ne.symm h]
  | cons p rest ih =>
    obtain ⟨k1, v1⟩ := p
    by_cases hk : k1 = k
    · subst hk; simp [assocInsert, assocGet, Ne.symm h]
    · simp only [assocInsert, assocGet, if_neg hk]
      by_cases hq : k1 = k2
      · simp [hq]
      · simp [hq, ih]

/-- Lookup of a different key after a remove. -/
theorem assocGet_remove_ne (k2 k : String) (h : k2 ≠ k) :
    ∀ m, assocGet k2 (assocRemove k m) = assocGet k2 m := by
  intro m
  induction m with
  | nil => simp [assocRemove]
  | cons p rest ih =>
    obtain ⟨k1, v1⟩ := p
    by_cases hk : k1 = k
    · subst hk; simp [assocRemove, assocGet, Ne.symm h]
    · simp only [assocRemove, if_neg hk, assocGet]
      by_cases hq : k1 = k2
      · simp [hq]
      · simp [hq, ih]

/-! Claim theorems. -/

/-- C1: the claim asserts NavigateUp/NavigateDown on an empty entries list is
a guarded no-op that never faults; the code has no guard — with an empty list
the Up arm (whenever selected_index == 0, the construction default) and the
Down arm (always) evaluate `entries.len() - 1`, a usize underflow, so the
transition is an arithmetic fault (`none`), exhibited here on the
default-constructed ListInterface. -/
theorem c1_empty_list_navigation_is_unguarded :
    (∀ l : ListInterface, l.entries = [] → navDown l = none)
  ∧ (∀ l : ListInterface, l.entries = [] → l.selected_index = 0 →
      navUp l = none)
  ∧ navUp (ListInterface.default 0) = none
  ∧ navDown (ListInterface.default 0) = none := by
  refine ⟨?_, ?_, rfl, rfl⟩
  · intro l h
    simp [navDown, h]
  · intro l h h0
    simp [navUp, h, h0]

/-- C1 witness: the program's own default construction faults on NavigateDown. -/
theorem c1_empty_list_navigation_is_unguarded_witness :
    navDown (ListInterface.default 0) = none :=
  c1_empty_list_navigation_is_unguarded.1 (ListInterface.default 0) rfl

/-- C2 counterexample: replace on a handle whose key is absent does not fail
with KeyNotFound — it silently creates the entry (types.rs:128-133 removes
then inserts, and Value::replace returns unit, never an error). -/
theorem c2_replace_on_absent_key_creates_entry :
    assocGet "k" (ValueStore.mk []).map = none
  ∧ (Value.replace ⟨"k"⟩ (.vBool true) ⟨[]⟩).map = [("k", .vBool true)]
  ∧ (Value.mk "k").load (Value.replace ⟨"k"⟩ (.vBool true) ⟨[]⟩) =
      some (.vBool true) := by
  exact ⟨rfl, rfl, rfl⟩

/-- C2 amended: load on an absent key fails (KeyNotFound panic, no entry
created — load never modifies the store); replace on an absent key does NOT
fail: it inserts new_value under the handle's key, creating the entry, and
leaves every other key unchanged. -/
theorem c2_amended_load_fails_replace_inserts (store : ValueStore)
    (key : String) (v : StoredValue)
    (h : assocGet key store.map = none) :
    (Value.mk key).load store = none
  ∧ (Value.mk key).load (Value.replace ⟨key⟩ v store) = some v
  ∧ ∀ k2, k2 ≠ key →
      assocGet k2 (Value.replace ⟨key⟩ v store).map = assocGet k2 store.map := by
  refine ⟨h, ?_, ?_⟩
  · exact assocGet_insert_self key v _
  · intro k2 hk
    show assocGet k2 (assocInsert key v (assocRemove key store.map)) = _
    rw [assocGet_insert_ne k2 key v hk, assocGet_remove_ne k2 key hk]

/-- C2 amended witness at a concrete empty store. -/
theorem c2_amended_witness :
    assocGet "z" (ValueStore.mk []).map = none
  ∧ ((Value.mk "z").load ⟨[]⟩ = none
      ∧ (Value.mk "z").load (Value.replace ⟨"z"⟩ (.vI32 7) ⟨[]⟩) = some (.vI32 7)
      ∧ ∀ k2, k2 ≠ "z" →
          assocGet k2 (Value.replace ⟨"z"⟩ (.vI32 7) ⟨[]⟩).map =
            assocGet k2 (ValueStore.mk []).map) :=
  ⟨rfl, c2_amended_load_fails_replace_inserts ⟨[]⟩ "z" (.vI32 7) rfl⟩

/-- C5 counterexample: with non-empty entries and selected_index = -1 (the
structurally possible no-selection value), an accepted NavigateUp or
NavigateDown leaves the index at -1 — navigation does not re-clamp, so the
claimed invariant 0 ≤ selected_index fails afterward. -/
theorem c5_minus_one_is_not_reclamped :
    (navUp { exList1 with selected_index := -1 }).map
        (fun r => r.selected_index) = some (-1)
  ∧ (navDown { exList1 with selected_index := -1 }).map
        (fun r => r.selected_index) = some (-1)
  ∧ ¬ (0 : Int) ≤ -1 := by
  refine ⟨rfl, rfl, by decide⟩

/-- C5 amended: the navigation invariant is preserved, not established — if
entries is non-empty and 0 ≤ selected_index < entries.len() before an
accepted NavigateUp/NavigateDown, the same bounds hold afterward (and the
entries are untouched); a starting index of -1 must be excluded, since the
transition leaves it unchanged. -/
theorem c5_amended_navigation_preserves_invariant (l : ListInterface)
    (h0 : 0 ≤ l.selected_index)
    (h1 : l.selected_index < (l.entries.length : Int)) :
    (∃ l1, navUp l = some l1 ∧ 0 ≤ l1.selected_index ∧
        l1.selected_index < (l1.entries.length : Int) ∧ l1.entries = l.entries)
  ∧ (∃ l2, navDown l = some l2 ∧ 0 ≤ l2.selected_index ∧
        l2.selected_index < (l2.entries.length : Int) ∧ l2.entries = l.entries) := by
  have hpos : 0 < l.entries.length := by exact_mod_cast lt_of_le_of_lt h0 h1
  obtain ⟨n, hn⟩ : ∃ n, l.entries.length = n + 1 := ⟨l.entries.length - 1, by omega⟩
  constructor
  · by_cases h : l.selected_index = 0
    · refine ⟨{ l with selected_index := (n : Int) }, ?_, by positivity, ?_, rfl⟩
      · simp [navUp, h, hn]
      · show (n : Int) < (l.entries.length : Int)
        rw [hn]; push_cast; omega
    · refine ⟨{ l with selected_index := l.selected_index - 1 }, ?_, ?_, ?_, rfl⟩
      · simp [navUp, h, h0]
      · show (0 : Int) ≤ l.selected_index - 1
        omega
      · show l.selected_index - 1 < (l.entries.length : Int)
        omega
  · by_cases h : l.selected_index = (n : Int)
    · refine ⟨{ l with selected_index := 0 }, ?_, le_refl 0, ?_, rfl⟩
      · simp [navDown, hn, h]
      · show (0 : Int) < (l.entries.length : Int)
        exact_mod_cast hpos
    · refine ⟨{ l with selected_index :=
          (l.selected_index + 1) % ((n : Int) + 1) }, ?_, ?_, ?_, rfl⟩
      · simp [navDown, hn, h, h0]
      · exact Int.emod_nonneg _ (by positivity)
      · show (l.selected_index + 1) % ((n : Int) + 1) < (l.entries.length : Int)
        rw [hn]; push_cast
        exact Int.emod_lt_of_pos _ (by positivity)

/-- C5 amended witness at a concrete in-range list. -/
theorem c5_amended_witness :
    (0 : Int) ≤ exList3.selected_index
  ∧ exList3.selected_index < (exList3.entries.length : Int)
  ∧ ((∃ l1, navUp exList3 = some l1 ∧ 0 ≤ l1.selected_index ∧
        l1.selected_index < (l1.entries.length : Int) ∧ l1.entries = exList3.entries)
     ∧ (∃ l2, navDown exList3 = some l2 ∧ 0 ≤ l2.selected_index ∧
        l2.selected_index < (l2.entries.length : Int) ∧ l2.entries = exList3.entries)) :=
  ⟨by decide, by decide,
   c5_amended_navigation_preserves_invariant exList3 (by decide) (by decide)⟩

/-- In-range accepted NavigateDown is addition of 1 modulo the entry count. -/
theorem navDown_eq_emod (l : ListInterface)
    (h0 : 0 ≤ l.selected_index)
    (h1 : l.selected_index < (l.entries.length : Int)) :
    navDown l = some { l with selected_index :=
      (l.selected_index + 1) % (l.entries.length : Int) } := by
  have hpos : 0 < l.entries.length := by exact_mod_cast lt_of_le_of_lt h0 h1
  obtain ⟨n, hn⟩ : ∃ n, l.entries.length = n + 1 := ⟨l.entries.length - 1, by omega⟩
  rw [hn] at h1 ⊢
  push_cast at h1 ⊢
  by_cases h : l.selected_index = (n : Int)
  · simp only [navDown, hn, h]
    norm_num [Int.emod_self]
  · simp only [navDown, hn, if_neg h, if_pos h0]

/-- Iterating the accepted NavigateDown k times adds k modulo the entry count. -/
theorem navDownIter_spec (k : Nat) : ∀ (l : ListInterface),
    0 ≤ l.selected_index → l.selected_index < (l.entries.length : Int) →
    navDownIter k l = some { l with selected_index :=
      (l.selected_index + (k : Int)) % (l.entries.length : Int) } := by
  induction k with
  | zero =>
    intro l h0 h1
    have h : (l.selected_index + ((0 : Nat) : Int)) % (l.entries.length : Int) =
        l.selected_index := by
      simpa using Int.emod_eq_of_lt h0 h1
    rw [navDownIter, h]
  | succ n ih =>
    intro l h0 h1
    have hpos : (0 : Int) < (l.entries.length : Int) := lt_of_le_of_lt h0 h1
    rw [navDownIter, navDown_eq_emod l h0 h1, Option.some_bind]
    rw [ih _ (Int.emod_nonneg _ (by omega)) (by
      show (l.selected_index + 1) % (l.entries.length : Int) < (l.entries.length : Int)
      exact Int.emod_lt_of_pos _ hpos)]
    congr 2
    show ((l.selected_index + 1) % (l.entries.length : Int) + (n : Int)) %
        (l.entries.length : Int) =
      (l.selected_index + ((n + 1 : Nat) : Int)) % (l.entries.length : Int)
    rw [Int.emod_add_emod]
    congr 1
    push_cast
    ring

/-- C7: for non-empty entries with 0 ≤ selected_index < N, N accepted
NavigateDown transitions return the ListInterface (and in particular its
selected_index) to its original value — the cyclic behavior of order N. -/
theorem c7_navdown_n_times_is_identity (l : ListInterface)
    (h0 : 0 ≤ l.selected_index)
    (h1 : l.selected_index < (l.entries.length : Int)) :
    navDownIter l.entries.length l = some l := by
  rw [navDownIter_spec _ l h0 h1]
  have h : (l.selected_index + (l.entries.length : Int)) %
      (l.entries.length : Int) = l.selected_index := by
    calc (l.selected_index + (l.entries.length : Int)) % (l.entries.length : Int)
        = (l.selected_index % (l.entries.length : Int) +
           (l.entries.length : Int) % (l.entries.length : Int)) %
            (l.entries.length : Int) := Int.add_emod _ _ _
      _ = l.selected_index % (l.entries.length : Int) % (l.entries.length : Int) := by
          rw [Int.emod_self, add_zero]
      _ = l.selected_index % (l.entries.length : Int) :=
          Int.emod_emod_of_dvd _ dvd_rfl
      _ = l.selected_index := Int.emod_eq_of_lt h0 h1
  rw [h]

/-- C7 witness: three NavigateDown events on a three-entry list return it to
its starting state. -/
theorem c7_witness :
    (0 : Int) ≤ exList3.selected_index
  ∧ exList3.selected_index < (exList3.entries.length : Int)
  ∧ navDownIter exList3.entries.length exList3 = some exList3 :=
  ⟨by decide, by decide,
   c7_navdown_n_times_is_identity exList3 (by decide) (by decide)⟩

/-- C10: the per-frame closure's store block unconditionally replaces "key1"
with the String "banana" (creating the key when absent), then loads "key3";
for every store lacking "key3" that load reaches the absent-key unwrap and
panics — in particular for the store the program's own setup builds, which
holds only the key "time". -/
theorem c10_frame_update_panics_without_key3 :
    (∀ store : ValueStore, assocGet "key3" store.map = none →
        frameStoreUpdate store = none)
  ∧ (∀ store : ValueStore,
        (Value.mk "key1").load ((store.get "key1").replace (.vText "banana") store) =
          some (.vText "banana"))
  ∧ assocGet "key3" setupStore.map = none
  ∧ frameStoreUpdate setupStore = none := by
  refine ⟨?_, ?_, rfl, rfl⟩
  · intro store h
    have h2 : assocGet "key3"
        (assocInsert "key1" (.vText "banana") (assocRemove "key1" store.map)) = none := by
      rw [assocGet_insert_ne _ _ _ (by decide), assocGet_remove_ne _ _ (by decide)]
      exact h
    simp [frameStoreUpdate, ValueStore.get, Value.replace, Value.load, h2]
  · intro store
    exact assocGet_insert_self "key1" (.vText "banana") _

/-- C10 witness: the setup store itself panics in the per-frame closure. -/
theorem c10_witness :
    assocGet "key3" setupStore.map = none ∧ frameStoreUpdate setupStore = none :=
  ⟨rfl, c10_frame_update_panics_without_key3.1 setupStore rfl⟩

/-! Layout characterization lemmas. -/

/-- Example measure function used in concrete layout runs. -/
def exMeasure : String → Q := fun _ => 100

/-- The running-max fold of the measurement pass computes the list maximum. -/
theorem foldl_if_is_max : ∀ (ws : List Int) (a : Int),
    ws.foldl (fun x w => if x < w then w else x) a = ws.foldl max a := by
  intro ws
  induction ws with
  | nil => intro a; rfl
  | cons w t ih =>
    intro a
    simp only [List.foldl_cons]
    rw [ih]
    congr 1
    by_cases h : a < w
    · rw [if_pos h, max_eq_right h.le]
    · rw [if_neg h, max_eq_left (not_lt.mp h)]

/-- Full characterization of the measurement pass: final_x is the running-max
fold over the per-entry combined widths, and the emitted text list interleaves
one label and one value primitive per entry, in entry order. -/
theorem pass1_spec (store : ValueStore) (measure : String → Q) (sel : Int)
    (style : ListStyle) (tl : Int × Int) :
    ∀ (items : List ListItem) (i : Nat) (fx : Int) (ts : List TextPrim)
      (fxOut : Int),
      pass1 store measure sel style tl i fx items = some (ts, fxOut) →
      (∃ ws, widthsM store measure items = some ws ∧
          fxOut = ws.foldl (fun x w => if x < w then w else x) fx)
      ∧ ts.length = 2 * items.length
      ∧ ∀ k item, items[k]? = some item →
          ∃ v, item.value.load store = some v ∧
            ts[2 * k]? = some (labelPrim sel style tl (i + k) item) ∧
            ts[2 * k + 1]? = some (valuePrim measure sel style tl (i + k) item v) := by
  intro items
  induction items with
  | nil =>
    intro i fx ts fxOut h
    simp only [pass1, Option.some.injEq, Prod.mk.injEq] at h
    obtain ⟨hts, hfx⟩ := h
    subst hts; subst hfx
    refine ⟨⟨[], rfl, rfl⟩, rfl, ?_⟩
    intro k item hk
    simp at hk
  | cons a t ih =>
    intro i fx ts fxOut h
    simp only [pass1] at h
    cases hload : a.value.load store with
    | none => rw [hload] at h; simp at h
    | some v =>
      rw [hload] at h
      dsimp only at h
      cases hrec : pass1 store measure sel style tl (i + 1)
          (if fx < elemWidth measure a v then elemWidth measure a v else fx) t with
      | none => rw [hrec] at h; simp at h
      | some p =>
        obtain ⟨ts1, fxOut1⟩ := p
        rw [hrec] at h
        dsimp only at h
        simp only [Option.some.injEq, Prod.mk.injEq] at h
        obtain ⟨hts, hfx⟩ := h
        subst hts; subst hfx
        obtain ⟨⟨ws, hws, hfold⟩, hlen, hget⟩ := ih _ _ _ _ hrec
        refine ⟨⟨elemWidth measure a v :: ws, ?_, ?_⟩, ?_, ?_⟩
        · simp only [widthsM, entryCombinedWidth, hload, Option.map_some', hws]
        · simpa using hfold
        · simp only [List.length_cons, hlen]; ring
        · intro k item hk
          cases k with
          | zero =>
            simp only [List.getElem?_cons_zero, Option.some.injEq] at hk
            subst hk
            exact ⟨v, hload, by simp, by simp⟩
          | succ k2 =>
            simp only [List.getElem?_cons_succ] at hk
            obtain ⟨v2, hv2, hl2, hr2⟩ := hget k2 item hk
            refine ⟨v2, hv2, ?_, ?_⟩
            · have h2 : 2 * (k2 + 1) = (2 * k2 + 1) + 1 := by ring
              rw [h2, List.getElem?_cons_succ, List.getElem?_cons_succ, hl2]
              congr 2
              omega
            · have h2 : 2 * (k2 + 1) + 1 = ((2 * k2 + 1) + 1) + 1 := by ring
              rw [h2, List.getElem?_cons_succ, List.getElem?_cons_succ, hr2]
              congr 2
              omega

/-- The foreground pass emits exactly one rect per entry. -/
theorem pass2_length (sel : Int) (style : ListStyle) (cfg : LayoutConfig)
    (tl : Int × Int) (finalX : Int) :
    ∀ (items : List ListItem) (i : Nat) (rs : List RectPrim),
      pass2 sel style cfg tl finalX i items = some rs →
      rs.length = items.length := by
  intro items
  induction items with
  | nil =>
    intro i rs h
    simp only [pass2, Option.some.injEq] at h
    subst h; rfl
  | cons a t ih =>
    intro i rs h
    simp only [pass2] at h
    by_cases h8 : 8 ≤ intAsU32 finalX
    · rw [if_pos h8] at h
      cases hrec : pass2 sel style cfg tl finalX (i + 1) t with
      | none => rw [hrec] at h; simp at h
      | some rs1 =>
        rw [hrec] at h
        dsimp only at h
        simp only [Option.some.injEq] at h
        subst h
        simp [ih _ _ hrec]
    · rw [if_neg h8] at h; simp at h

/-- C3 counterexample: a one-entry list at surface 640×480 gets a background
rect of height 480 (the surface height), not 40 × 1 (row height × entries). -/
theorem c3_background_height_is_not_row_times_count :
    (layout_listui exStore exMeasure ⟨640, 480⟩ exList1).map
      (fun o => o.rects.map (fun r => r.rect.wh.2)) = some [480, 32]
  ∧ (480 : Nat) ≠ 40 * exList1.entries.length := by
  exact ⟨by decide, by decide⟩

/-- C3 amended: one layout pass emits exactly one background rectangle — the
head of the rect list, followed by exactly one foreground rect per entry —
positioned at the anchor coordinate, colored with the widget's background
style, whose width is the running maximum of the combined label+value shaped
widths over all entries (u32/i32-cast), and whose HEIGHT IS THE CURRENT
SURFACE HEIGHT (config.height), not row height × entry count. -/
theorem c3_amended_background_rect (store : ValueStore) (measure : String → Q)
    (cfg : LayoutConfig) (l : ListInterface) (out : LayoutOutput)
    (_hne : l.entries ≠ [])
    (h : layout_listui store measure cfg l = some out) :
    ∃ ws : List Int, widthsM store measure l.entries = some ws ∧
      out.rects[0]? = some
        { rect := { xy := anchorTopLeft cfg l.anchor
                    wh := (intAsU32 (ws.foldl max 0), cfg.height)
                    extent := (cfg.width, cfg.height) }
          color := l.style.bg }
    ∧ out.rects.length = 1 + l.entries.length := by
  simp only [layout_listui] at h
  cases hp1 : pass1 store measure l.selected_index l.style
      (anchorTopLeft cfg l.anchor) 0 0 l.entries with
  | none => rw [hp1] at h; simp at h
  | some p =>
    obtain ⟨ts, finalX⟩ := p
    rw [hp1] at h
    dsimp only at h
    cases hp2 : pass2 l.selected_index l.style cfg
        (anchorTopLeft cfg l.anchor) finalX 0 l.entries with
    | none => rw [hp2] at h; simp at h
    | some fgs =>
      rw [hp2] at h
      dsimp only at h
      simp only [Option.some.injEq] at h
      subst h
      obtain ⟨⟨ws, hws, hfold⟩, -, -⟩ :=
        pass1_spec store measure l.selected_index l.style
          (anchorTopLeft cfg l.anchor) l.entries 0 0 ts finalX hp1
      refine ⟨ws, hws, ?_, ?_⟩
      · rw [hfold, foldl_if_is_max]
        simp
      · have hl := pass2_length l.selected_index l.style cfg
          (anchorTopLeft cfg l.anchor) finalX l.entries 0 fgs hp2
        simp only [List.length_cons, hl]
        omega

/-- C3 amended witness: concrete one-entry run (the theorem instantiated at
the value the layout actually computes). -/
theorem c3_amended_witness :
    exList1.entries ≠ []
  ∧ layout_listui exStore exMeasure ⟨640, 480⟩ exList1 =
      some ((layout_listui exStore exMeasure ⟨640, 480⟩ exList1).getD ⟨[], []⟩)
  ∧ ∃ ws : List Int, widthsM exStore exMeasure exList1.entries = some ws ∧
      ((layout_listui exStore exMeasure ⟨640, 480⟩ exList1).getD ⟨[], []⟩).rects[0]? =
        some { rect := { xy := anchorTopLeft ⟨640, 480⟩ exList1.anchor
                         wh := (intAsU32 (ws.foldl max 0), 480)
                         extent := (640, 480) }
               color := exList1.style.bg }
    ∧ ((layout_listui exStore exMeasure ⟨640, 480⟩ exList1).getD ⟨[], []⟩).rects.length =
        1 + exList1.entries.length :=
  ⟨by decide, rfl,
   c3_amended_background_rect exStore exMeasure ⟨640, 480⟩ exList1 _ (by decide) rfl⟩

/-- C4 counterexample: a Hidden-anchored one-entry list IS laid out — the
layout pass emits 2 rect primitives and 2 text primitives, not zero. -/
theorem c4_hidden_list_is_laid_out :
    (layout_listui exStore exMeasure ⟨640, 480⟩
        { exList1 with anchor := .Hidden }).map
      (fun o => (o.rects.length, o.texts.length)) = some (2, 2)
  ∧ (2 : Nat) ≠ 0 := by
  exact ⟨rfl, by decide⟩

/-- C4 amended: layout_listui does not skip a Hidden list; it lays it out
exactly as if it were anchored Left (top-left coordinate (0,0)), emitting the
same background rect, foreground rects and text primitives. (Only the
window-resize handler, window.rs:454-462, skips Hidden lists when re-laying
out; the per-frame call in main.rs:128 lays out regardless of anchor.) -/
theorem c4_amended_hidden_laid_out_as_left (store : ValueStore)
    (measure : String → Q) (cfg : LayoutConfig) (l : ListInterface) :
    layout_listui store measure cfg { l with anchor := .Hidden } =
      layout_listui store measure cfg { l with anchor := .Left } := rfl

/-- C6 counterexample: a stored TEXT value "42" (a non-numeric type whose
content happens to parse as a number) is handed to the shaper as "42.00",
not as its natural display text "42". -/
theorem c6_numeric_text_value_is_reformatted :
    (layout_listui ⟨[("k", .vText "42")]⟩ exMeasure ⟨640, 480⟩ exList1).map
      (fun o => o.texts.map (fun t => t.content)) = some ["t: ", "42.00"]
  ∧ (StoredValue.vText "42").display = "42"
  ∧ ("42.00" : String) ≠ "42" := by
  exact ⟨rfl, rfl, by decide⟩

/-- C6 amended: the value text handed to the shaper for entry k is
formatText applied to the stored value's display text — the two-decimal
rewrite fires exactly when the DISPLAY TEXT parses as a float, regardless of
the stored type (so numeric-content text strings are rewritten too), and any
display text that does not parse (booleans among them) is shaped unmodified. -/
theorem c6_amended_reformat_is_content_based (store : ValueStore)
    (measure : String → Q) (cfg : LayoutConfig) (l : ListInterface)
    (out : LayoutOutput) (k : Nat) (item : ListItem)
    (h : layout_listui store measure cfg l = some out)
    (hk : l.entries[k]? = some item) :
    (∃ v, item.value.load store = some v ∧
      ∃ tp, out.texts[2 * k + 1]? = some tp ∧
        tp.content = formatText v.display ∧
        (∀ q, parseF64 v.display = some q → tp.content = fmt2 q) ∧
        (parseF64 v.display = none → tp.content = v.display))
  ∧ ∀ b : Bool,
      formatText (StoredValue.vBool b).display = (StoredValue.vBool b).display := by
  constructor
  · simp only [layout_listui] at h
    cases hp1 : pass1 store measure l.selected_index l.style
        (anchorTopLeft cfg l.anchor) 0 0 l.entries with
    | none => rw [hp1] at h; simp at h
    | some p =>
      obtain ⟨ts, finalX⟩ := p
      rw [hp1] at h
      dsimp only at h
      cases hp2 : pass2 l.selected_index l.style cfg
          (anchorTopLeft cfg l.anchor) finalX 0 l.entries with
      | none => rw [hp2] at h; simp at h
      | some fgs =>
        rw [hp2] at h
        dsimp only at h
        simp only [Option.some.injEq] at h
        subst h
        obtain ⟨-, -, hget⟩ :=
          pass1_spec store measure l.selected_index l.style
            (anchorTopLeft cfg l.anchor) l.entries 0 0 ts finalX hp1
        obtain ⟨v, hv, -, hval⟩ := hget k item hk
        refine ⟨v, hv, valuePrim measure l.selected_index l.style
          (anchorTopLeft cfg l.anchor) (0 + k) item v, hval, rfl, ?_, ?_⟩
        · intro q hq
          show formatText v.display = _
          rw [formatText, hq]
        · intro hq
          show formatText v.display = _
          rw [formatText, hq]
  · intro b
    cases b <;> rfl

/-- C6 amended witness: concrete run over a boolean-valued entry. -/
theorem c6_amended_witness :
    layout_listui exStore exMeasure ⟨640, 480⟩ exList1 =
      some ((layout_listui exStore exMeasure ⟨640, 480⟩ exList1).getD ⟨[], []⟩)
  ∧ exList1.entries[0]? = some exItem
  ∧ ((∃ v, exItem.value.load exStore = some v ∧
        ∃ tp, ((layout_listui exStore exMeasure ⟨640, 480⟩ exList1).getD
            ⟨[], []⟩).texts[2 * 0 + 1]? = some tp ∧
          tp.content = formatText v.display ∧
          (∀ q, parseF64 v.display = some q → tp.content = fmt2 q) ∧
          (parseF64 v.display = none → tp.content = v.display))
     ∧ ∀ b : Bool,
        formatText (StoredValue.vBool b).display = (StoredValue.vBool b).display) :=
  ⟨rfl, rfl,
   c6_amended_reformat_is_content_based exStore exMeasure ⟨640, 480⟩ exList1
     _ 0 exItem rfl rfl⟩

/-! Claims C9 and C8. -/

/-- NavigateUp neither reads nor clears the focused flag. -/
theorem navUp_ignores_focused (l : ListInterface) (b : Bool) :
    navUp { l with focused := b } =
      (navUp l).map (fun r => { r with focused := b }) := by
  obtain ⟨st, an, fo, po, re, si, en, rg⟩ := l
  cases en <;> simp only [navUp] <;> split_ifs <;> rfl

/-- NavigateDown neither reads nor clears the focused flag. -/
theorem navDown_ignores_focused (l : ListInterface) (b : Bool) :
    navDown { l with focused := b } =
      (navDown l).map (fun r => { r with focused := b }) := by
  cases hL : l.entries with
  | nil => simp [navDown, hL]
  | cons x t =>
    simp only [navDown, hL, List.length_cons]
    split_ifs <;> first | rfl | (rw [← hL]; rfl)

/-- The navigation for-loop steps every listui of the state, in order. -/
theorem navigateAll_spec (step : ListInterface → Option ListInterface) :
    ∀ (xs ys : List ListInterface), navigateAll step xs = some ys →
      ys.length = xs.length ∧
      ∀ (k : Nat) (x : ListInterface), xs[k]? = some x →
        ∃ y, ys[k]? = some y ∧ step x = some y := by
  intro xs
  induction xs with
  | nil =>
    intro ys h
    simp only [navigateAll, Option.some.injEq] at h
    subst h
    exact ⟨rfl, by intro k x hk; simp at hk⟩
  | cons a t ih =>
    intro ys h
    simp only [navigateAll] at h
    cases ha : step a with
    | none => rw [ha] at h; simp at h
    | some a1 =>
      rw [ha] at h
      dsimp only at h
      cases ht : navigateAll step t with
      | none => rw [ht] at h; simp at h
      | some t1 =>
        rw [ht] at h
        dsimp only at h
        simp only [Option.some.injEq] at h
        subst h
        obtain ⟨hlen, hget⟩ := ih t1 ht
        refine ⟨by simp [hlen], ?_⟩
        intro k x hk
        cases k with
        | zero =>
          simp only [List.getElem?_cons_zero, Option.some.injEq] at hk
          subst hk
          exact ⟨a1, by simp, ha⟩
        | succ k2 =>
          simp only [List.getElem?_cons_succ] at hk ⊢
          exact hget k2 x hk

/-- C9: an accepted NavigateUp/NavigateDown event steps EVERY ListInterface
stored in the State, focused or not, and the focused flag (written at
construction, listui.rs:64/81) is never read: navigation commutes with any
rewrite of the flag, and the layout pass is invariant under it, so the flag
has no observable effect. -/
theorem c9_focused_flag_has_no_effect :
    (∀ (l : ListInterface) (b : Bool),
        navUp { l with focused := b } =
          (navUp l).map (fun r => { r with focused := b })
      ∧ navDown { l with focused := b } =
          (navDown l).map (fun r => { r with focused := b }))
  ∧ (∀ s s1 : AppState, processUp s = some s1 →
        s1.listuis.length = s.listuis.length
      ∧ ∀ (k : Nat) (li : ListInterface), s.listuis[k]? = some li →
          ∃ li1, s1.listuis[k]? = some li1 ∧ navUp li = some li1)
  ∧ (∀ s s1 : AppState, processDown s = some s1 →
        s1.listuis.length = s.listuis.length
      ∧ ∀ (k : Nat) (li : ListInterface), s.listuis[k]? = some li →
          ∃ li1, s1.listuis[k]? = some li1 ∧ navDown li = some li1)
  ∧ (∀ (store : ValueStore) (measure : String → Q) (cfg : LayoutConfig)
        (l : ListInterface) (b : Bool),
        layout_listui store measure cfg { l with focused := b } =
          layout_listui store measure cfg l) := by
  refine ⟨fun l b => ⟨navUp_ignores_focused l b, navDown_ignores_focused l b⟩,
    ?_, ?_, fun store measure cfg l b => rfl⟩
  · intro s s1 h
    simp only [processUp] at h
    cases hall : navigateAll navUp s.listuis with
    | none => rw [hall] at h; simp at h
    | some ls =>
      rw [hall] at h
      simp only [Option.map_some', Option.some.injEq] at h
      subst h
      exact navigateAll_spec navUp s.listuis ls hall
  · intro s s1 h
    simp only [processDown] at h
    cases hall : navigateAll navDown s.listuis with
    | none => rw [hall] at h; simp at h
    | some ls =>
      rw [hall] at h
      simp only [Option.map_some', Option.some.injEq] at h
      subst h
      exact navigateAll_spec navDown s.listuis ls hall

/-- Example two-list state: first list focused, second not. -/
def exState : AppState := ⟨[{ exList3 with focused := true }, exList1]⟩

/-- C9 witness: in a concrete state holding a focused and an unfocused list,
an accepted NavigateUp steps the unfocused one too. -/
theorem c9_witness :
    processUp exState = some ((processUp exState).getD ⟨[]⟩)
  ∧ exState.listuis[1]? = some exList1
  ∧ ∃ li1, ((processUp exState).getD ⟨[]⟩).listuis[1]? = some li1 ∧
      navUp exList1 = some li1 :=
  ⟨rfl, rfl,
   (c9_focused_flag_has_no_effect.2.1 exState _ rfl).2 1 exList1 rfl⟩

/-- Buffer length is preserved by the recalc walk. -/
theorem recalcAux_buffer_length (screen : Nat × Nat) :
    ∀ (insts : List Instance) (buf : List InstanceData) (start : Nat),
      (recalcAux screen insts buf start).2.length = buf.length := by
  intro insts
  induction insts with
  | nil => intro buf start; rfl
  | cons a t ih =>
    intro buf start
    simp only [recalcAux]
    by_cases hd : dirtyPix a
    · rw [if_pos hd]
      simp [ih, List.length_set]
    · rw [if_neg hd]
      simp [ih]

/-- Slots below the walk's start index are never written. -/
theorem recalcAux_buffer_lt (screen : Nat × Nat) :
    ∀ (insts : List Instance) (buf : List InstanceData) (start j : Nat),
      j < start → (recalcAux screen insts buf start).2[j]? = buf[j]? := by
  intro insts
  induction insts with
  | nil => intro buf start j _; rfl
  | cons a t ih =>
    intro buf start j hj
    simp only [recalcAux]
    by_cases hd : dirtyPix a
    · rw [if_pos hd]
      dsimp only
      rw [ih _ (start + 1) j (by omega)]
      exact List.getElem?_set_ne (by omega)
    · rw [if_neg hd]
      dsimp only
      exact ih _ (start + 1) j (by omega)

/-- Slots at or beyond start + length are never written. -/
theorem recalcAux_buffer_ge (screen : Nat × Nat) :
    ∀ (insts : List Instance) (buf : List InstanceData) (start j : Nat),
      start + insts.length ≤ j →
      (recalcAux screen insts buf start).2[j]? = buf[j]? := by
  intro insts
  induction insts with
  | nil => intro buf start j _; rfl
  | cons a t ih =>
    intro buf start j hj
    simp only [recalcAux]
    simp only [List.length_cons] at hj
    by_cases hd : dirtyPix a
    · rw [if_pos hd]
      dsimp only
      rw [ih _ (start + 1) j (by omega)]
      exact List.getElem?_set_ne (by omega)
    · rw [if_neg hd]
      dsimp only
      exact ih _ (start + 1) j (by omega)

/-- The local instance list after the walk: dirty pixel-rect instances get
their flag cleared, everything else is untouched; order and length kept. -/
theorem recalcAux_data (screen : Nat × Nat) :
    ∀ (insts : List Instance) (buf : List InstanceData) (start : Nat),
      (recalcAux screen insts buf start).1 =
        insts.map (fun inst => if dirtyPix inst then
          { inst with needs_update := false } else inst) := by
  intro insts
  induction insts with
  | nil => intro buf start; rfl
  | cons a t ih =>
    intro buf start
    simp only [recalcAux, List.map_cons]
    by_cases hd : dirtyPix a
    · rw [if_pos hd, if_pos hd]
      simp [ih]
    · rw [if_neg hd, if_neg hd]
      simp [ih]

/-- The slot of each walked instance: re-staged with the recomputed data when
dirty and pixel-rect derived, untouched otherwise. -/
theorem recalcAux_buffer_self (screen : Nat × Nat) :
    ∀ (insts : List Instance) (buf : List InstanceData) (start k : Nat)
      (inst : Instance), insts[k]? = some inst →
      (dirtyPix inst = true →
          (recalcAux screen insts buf start).2[start + k]? =
            if start + k < buf.length then some (recalcData screen inst) else none)
    ∧ (dirtyPix inst = false →
          (recalcAux screen insts buf start).2[start + k]? = buf[start + k]?) := by
  intro insts
  induction insts with
  | nil => intro buf start k inst h; simp at h
  | cons a t ih =>
    intro buf start k inst h
    cases k with
    | zero =>
      simp only [List.getElem?_cons_zero, Option.some.injEq] at h
      subst h
      constructor
      · intro hd
        simp only [recalcAux]
        rw [if_pos hd]
        dsimp only
        have hlow := recalcAux_buffer_lt screen t
          (buf.set start (recalcData screen a)) (start + 1) start (by omega)
        simp only [Nat.add_zero, hlow]
        rcases Nat.lt_or_ge start buf.length with hlt | hge
        · rw [if_pos hlt]
          exact List.getElem?_set_eq_of_lt _ hlt
        · rw [if_neg (by omega)]
          exact List.getElem?_eq_none (by rw [List.length_set]; omega)
      · intro hd
        simp only [recalcAux]
        rw [if_neg (by simp [hd])]
        dsimp only
        have hlow := recalcAux_buffer_lt screen t buf (start + 1) start (by omega)
        simp only [Nat.add_zero, hlow]
    | succ k2 =>
      simp only [List.getElem?_cons_succ] at h
      have harr : start + (k2 + 1) = (start + 1) + k2 := by omega
      by_cases hdA : dirtyPix a
      · simp only [recalcAux]
        rw [if_pos hdA]
        dsimp only
        have hih := ih (buf.set start (recalcData screen a)) (start + 1) k2 inst h
        constructor
        · intro hd
          rw [harr, hih.1 hd, List.length_set]
        · intro hd
          rw [harr, hih.2 hd]
          exact List.getElem?_set_ne (by omega)
      · simp only [recalcAux]
        rw [if_neg hdA]
        dsimp only
        have hih := ih buf (start + 1) k2 inst h
        constructor
        · intro hd
          rw [harr, hih.1 hd]
        · intro hd
          rw [harr, hih.2 hd]

/-- C8: recalc_screen_instances re-stages exactly the instances whose dirty
flag is set and whose transform came from a pixel rectangle: those get their
flag cleared locally and their GPU slot rewritten with the placement
recomputed against the new extent; every other instance — flag clear, or not
pixel-rect derived — is untouched in both the local list and the GPU buffer,
as is every slot beyond the instance count; both lengths are preserved. -/
theorem c8_recalc_exactly_dirty_pixel_rect (m : InstanceBufferManager)
    (screen : Nat × Nat) :
    (InstanceBufferManager.recalc_screen_instances screen m).data.length =
      m.data.length
  ∧ (InstanceBufferManager.recalc_screen_instances screen m).buffer.length =
      m.buffer.length
  ∧ (∀ (k : Nat) (inst : Instance), m.data[k]? = some inst →
      (dirtyPix inst = true →
          (InstanceBufferManager.recalc_screen_instances screen m).data[k]? =
            some { inst with needs_update := false }
        ∧ (InstanceBufferManager.recalc_screen_instances screen m).buffer[k]? =
            (if k < m.buffer.length then some (recalcData screen inst) else none))
    ∧ (dirtyPix inst = false →
          (InstanceBufferManager.recalc_screen_instances screen m).data[k]? =
            some inst
        ∧ (InstanceBufferManager.recalc_screen_instances screen m).buffer[k]? =
            m.buffer[k]?))
  ∧ (∀ j : Nat, m.data.length ≤ j →
      (InstanceBufferManager.recalc_screen_instances screen m).buffer[j]? =
        m.buffer[j]?) := by
  refine ⟨?_, ?_, ?_, ?_⟩
  · show (recalcAux screen m.data m.buffer 0).1.length = _
    rw [recalcAux_data]
    exact List.length_map _ _
  · exact recalcAux_buffer_length screen m.data m.buffer 0
  · intro k inst hk
    have hdata : (InstanceBufferManager.recalc_screen_instances screen m).data[k]? =
        (m.data[k]?).map (fun inst => if dirtyPix inst then
          { inst with needs_update := false } else inst) := by
      show (recalcAux screen m.data m.buffer 0).1[k]? = _
      rw [recalcAux_data]
      exact List.getElem?_map _ _ _
    have hself := recalcAux_buffer_self screen m.data m.buffer 0 k inst hk
    rw [Nat.zero_add] at hself
    constructor
    · intro hd
      refine ⟨?_, hself.1 hd⟩
      rw [hdata, hk]
      simp [hd]
    · intro hd
      refine ⟨?_, hself.2 hd⟩
      rw [hdata, hk]
      simp [hd]
  · intro j hj
    have := recalcAux_buffer_ge screen m.data m.buffer 0 j (by omega)
    exact this

/-- ComponentTransform::default (types.rs:580-589). -/
def ComponentTransform.default : ComponentTransform :=
  { pixel_rect := none, location := ⟨0, 0, 0⟩, rotation := QuatQ.identity,
    scale := ⟨1, 1, 1⟩ }

/-- Example pixel rectangle computed against a 640×480 extent. -/
def exPR : PixelRect := { xy := (10, 20), wh := (30, 40), extent := (640, 480) }

/-- Dirty instance whose transform came from a pixel rect (flag set as
Instance::translate would leave it). -/
def exInstDirty : Instance :=
  { needs_update := true
    transform := ComponentTransform.unit_square_transform_from_pixel_rect exPR
    tex_transform := ComponentTransform.default
    color := ColorRGBA.white }

/-- Dirty instance placed as raw 3D geometry (no pixel rect): must be
left untouched by the recalc. -/
def exInstRaw : Instance :=
  { needs_update := true
    transform := ComponentTransform.default
    tex_transform := ComponentTransform.default
    color := ColorRGBA.grey_light }

/-- Example buffer manager holding both kinds of instance. -/
def exIBM : InstanceBufferManager :=
  { data := [exInstDirty, exInstRaw]
    buffer := [⟨ComponentTransform.default.to_mat4,
                ComponentTransform.default.to_mat4, ColorRGBA.white⟩,
               ⟨ComponentTransform.default.to_mat4,
                ComponentTransform.default.to_mat4, ColorRGBA.white⟩] }

/-- C8 witness: after a resize to 800×600, the dirty pixel-rect instance is
re-staged with its flag cleared while the raw-3D dirty instance and its slot
are untouched. -/
theorem c8_witness :
    exIBM.data[0]? = some exInstDirty
  ∧ dirtyPix exInstDirty = true
  ∧ (InstanceBufferManager.recalc_screen_instances (800, 600) exIBM).data[0]? =
      some { exInstDirty with needs_update := false }
  ∧ (InstanceBufferManager.recalc_screen_instances (800, 600) exIBM).buffer[0]? =
      (if 0 < exIBM.buffer.length then some (recalcData (800, 600) exInstDirty)
       else none)
  ∧ exIBM.data[1]? = some exInstRaw
  ∧ dirtyPix exInstRaw = false
  ∧ (InstanceBufferManager.recalc_screen_instances (800, 600) exIBM).data[1]? =
      some exInstRaw
  ∧ (InstanceBufferManager.recalc_screen_instances (800, 600) exIBM).buffer[1]? =
      exIBM.buffer[1]? := by
  have h := c8_recalc_exactly_dirty_pixel_rect exIBM (800, 600)
  have h0 := (h.2.2.1 0 exInstDirty rfl).1 rfl
  have h1 := (h.2.2.1 1 exInstRaw rfl).2 rfl
  exact ⟨rfl, rfl, h0.1, h0.2, rfl, rfl, h1.1, h1.2⟩

end Shecv
